import Mathlib

/-!
Shallow embedding of `repoupdate.py` (xbmc-repo-update): an add-on
repository update tool.  Paths are modelled as lists of components,
directory trees as finite labelled trees, XML documents at the
ElementTree level (tag, attributes, children), and the external library
functions `ET.tostring` and `hashlib.md5(...).hexdigest()` as abstract
function parameters.  Fallible Python code (exceptions) is modelled with
`Except`; the exception kinds that matter to the control flow are
`ET.ParseError`, `KeyError` and `ValueError`.
-/

/-- A filesystem path, as a list of components. -/
abbrev FsPath := List String

/-- Python `int(p)` on one dot-separated component: optional sign, then a
nonempty run of decimal digits; anything else raises `ValueError`
(modelled as `none`). -/
def digitsVal (cs : List Char) : Int :=
  cs.foldl (fun acc c => acc * 10 + ((c.toNat : Int) - 48)) 0

def parseIntChars (cs : List Char) : Option Int :=
  match cs with
  | '-' :: rest =>
      if rest ≠ [] ∧ rest.all Char.isDigit then some (-(digitsVal rest)) else none
  | '+' :: rest =>
      if rest ≠ [] ∧ rest.all Char.isDigit then some (digitsVal rest) else none
  | _ =>
      if cs ≠ [] ∧ cs.all Char.isDigit then some (digitsVal cs) else none

/-- Python `version.split('.')` on the character list of the string. -/
def splitDots : List Char → List (List Char)
  | [] => [[]]
  | c :: rest =>
      if c = '.' then [] :: splitDots rest
      else
        match splitDots rest with
        | g :: gs => (c :: g) :: gs
        | [] => [[c]]

def parseParts : List (List Char) → Option (List Int)
  | [] => some []
  | g :: gs =>
      match parseIntChars g, parseParts gs with
      | some v, some vs => some (v :: vs)
      | _, _ => none

/-- `version_parts(version)`: `[int(p) for p in version.split('.')]`.
`none` models an uncaught `ValueError` from `int`. -/
def version_parts (version : String) : Option (List Int) :=
  parseParts (splitDots version.toList)

/-- Python `<` on lists of integers: lexicographic, a proper prefix is
smaller. -/
def pyListLt : List Int → List Int → Bool
  | [], [] => false
  | [], _ :: _ => true
  | _ :: _, [] => false
  | a :: as, b :: bs =>
      if a < b then true else if b < a then false else pyListLt as bs

/-- An ElementTree element: tag, attributes (in document order) and child
elements (in document order). -/
inductive XmlElem where
  | mk (tag : String) (attrib : List (String × String)) (children : List XmlElem)

def XmlElem.tag : XmlElem → String
  | .mk t _ _ => t

def XmlElem.attrib : XmlElem → List (String × String)
  | .mk _ a _ => a

def XmlElem.children : XmlElem → List XmlElem
  | .mk _ _ c => c

mutual
def XmlElem.beq : XmlElem → XmlElem → Bool
  | .mk t a c, .mk t' a' c' => t == t' && a == a' && XmlElem.beqList c c'

def XmlElem.beqList : List XmlElem → List XmlElem → Bool
  | [], [] => true
  | x :: xs, y :: ys => XmlElem.beq x y && XmlElem.beqList xs ys
  | _, _ => false
end

mutual
theorem XmlElem.beq_iff : ∀ a b : XmlElem, XmlElem.beq a b = true ↔ a = b
  | .mk t a c, .mk t' a' c' => by
    simp only [XmlElem.beq, Bool.and_eq_true, beq_iff_eq, XmlElem.mk.injEq]
    constructor
    · rintro ⟨⟨h1, h2⟩, h3⟩
      exact ⟨h1, h2, (XmlElem.beqList_iff c c').mp h3⟩
    · rintro ⟨h1, h2, h3⟩
      exact ⟨⟨h1, h2⟩, (XmlElem.beqList_iff c c').mpr h3⟩

theorem XmlElem.beqList_iff : ∀ as bs : List XmlElem,
    XmlElem.beqList as bs = true ↔ as = bs
  | [], [] => by simp [XmlElem.beqList]
  | [], _ :: _ => by simp [XmlElem.beqList]
  | _ :: _, [] => by simp [XmlElem.beqList]
  | x :: xs, y :: ys => by
    simp only [XmlElem.beqList, Bool.and_eq_true, List.cons.injEq]
    constructor
    · rintro ⟨h1, h2⟩
      exact ⟨(XmlElem.beq_iff x y).mp h1, (XmlElem.beqList_iff xs ys).mp h2⟩
    · rintro ⟨h1, h2⟩
      exact ⟨(XmlElem.beq_iff x y).mpr h1, (XmlElem.beqList_iff xs ys).mpr h2⟩
end

instance : DecidableEq XmlElem := fun a b =>
  decidable_of_iff (XmlElem.beq a b = true) (XmlElem.beq_iff a b)

/-- `element.attrib[key]` lookup (first binding wins). -/
def lookupAttr (e : XmlElem) (key : String) : Option String :=
  e.attrib.lookup key

/-- The content of a file, as far as this tool can observe it: either a
well-formed XML document (what `ET.parse` would return) or raw bytes on
which `ET.parse` raises `ET.ParseError`. -/
inductive FileContent where
  | xmlDoc (e : XmlElem)
  | raw
deriving DecidableEq

/-- A directory tree: subdirectories and files, each in listing order. -/
inductive DirTree where
  | node (subdirs : List (String × DirTree)) (files : List (String × FileContent))

-- `os.walk`: top-down traversal yielding each directory's path together
-- with its directly contained files.
mutual
def walk (p : FsPath) : DirTree → List (FsPath × List (String × FileContent))
  | .node subdirs files => (p, files) :: walkList p subdirs

def walkList (p : FsPath) : List (String × DirTree) → List (FsPath × List (String × FileContent))
  | [] => []
  | (n, t) :: rest => walk (p ++ [n]) t ++ walkList p rest
end

/-- The exceptions whose identity matters to the tool's control flow. -/
inductive AddonError where
  | parseError
  | keyError (key : String)
  | valueError
deriving DecidableEq

deriving instance DecidableEq for Except

/-- `ET.parse(file)` on the content of an existing file: the root element,
or `ET.ParseError`. -/
def ET_parse : FileContent → Except AddonError XmlElem
  | .xmlDoc e => .ok e
  | .raw => .error .parseError

/-- `os.path.splitext(f)[1]` for a plain filename: the extension from the
last dot on, unless every character before that dot is itself a dot. -/
def lastIdxOf (c : Char) (cs : List Char) : Option Nat :=
  match (cs.reverse.findIdx? (fun x => x = c)) with
  | none => none
  | some j => some (cs.length - 1 - j)

def splitext_ext (f : String) : String :=
  let cs := f.toList
  match lastIdxOf '.' cs with
  | none => ""
  | some i => if (cs.take i).all (fun c => c = '.') then "" else String.mk (cs.drop i)

/-- `os.path.relpath(p, start)` on component lists (no common-prefix
climbing is needed beyond the shared prefix). -/
def commonPrefixLen : List String → List String → Nat
  | a :: as, b :: bs => if a = b then commonPrefixLen as bs + 1 else 0
  | _, _ => 0

def relpath (p start : List String) : List String :=
  let i := commonPrefixLen p start
  let res := List.replicate (start.length - i) ".." ++ p.drop i
  if res = [] then ["."] else res

/-- `os.path.normpath` on the components of a relative path, as
`zipfile.ZipFile.write` applies it to arcnames: drop empty and `.`
components and resolve `..` against the accumulated prefix. -/
def normpath_go (acc : List String) : List String → List String
  | [] => acc
  | c :: cs =>
      if c = "" ∨ c = "." then normpath_go acc cs
      else if c = ".." then
        if acc = [] ∨ acc.getLast? = some ".." then normpath_go (acc ++ [".."]) cs
        else normpath_go acc.dropLast cs
      else normpath_go (acc ++ [c]) cs

def pyNormpath (l : List String) : List String :=
  let r := normpath_go [] l
  if r = [] then ["."] else r

/-- `Addon`: id, version string, parsed version tuple, parsed descriptor
element and the directory containing the descriptor (`self._path`). -/
structure Addon where
  tree : XmlElem
  id : String
  version_str : String
  version : List Int
  path : FsPath
deriving DecidableEq

instance : Inhabited Addon :=
  ⟨{ tree := .mk "" [] [], id := "", version_str := "", version := [], path := [] }⟩

/-- `Addon.__init__(xml_file)`: parse the descriptor, read the `id` and
`version` attributes, split the version.  `ET.ParseError`, `KeyError`
and `ValueError` escape as they do in Python. -/
def Addon.init (content : FileContent) (xml_file : FsPath) : Except AddonError Addon :=
  match ET_parse content with
  | .error e => .error e
  | .ok t =>
    match lookupAttr t "id" with
    | none => .error (.keyError "id")
    | some i =>
      match lookupAttr t "version" with
      | none => .error (.keyError "version")
      | some vs =>
        match version_parts vs with
        | none => .error .valueError
        | some v =>
          .ok { tree := t, id := i, version_str := vs, version := v,
                path := xml_file.dropLast }

/-- `Addon.__str__`: `"{id}-{version_str}"`. -/
def Addon.toStr (a : Addon) : String := a.id ++ "-" ++ a.version_str

/-- `Addon.EXTS`. -/
def EXTS : List String := [".py", ".xml", ".jpg", ".png", ".txt"]

/-- The path of the archive created by `create_release`:
`os.path.join(path, self.id)` joined with `str(self) + '.zip'`. -/
def Addon.zip_path (a : Addon) (path : FsPath) : FsPath :=
  (path ++ [a.id]) ++ [a.toStr ++ ".zip"]

/-- `Addon._create_zip`: walk `self._path`, keep files whose extension is
in `EXTS`, and store each at
`normpath(join(self.id, relpath(root, self._path), f))` (the `normpath`
is applied by `zipfile.ZipFile.write` to the arcname).  Each entry is the
pair (source path, archive-internal path). -/
def zipEntriesGo (addonId : String) (base : FsPath) :
    List (FsPath × List (String × FileContent)) → List (FsPath × FsPath)
  | [] => []
  | e :: rest =>
      (e.2.filter (fun nf => EXTS.contains (splitext_ext nf.1))).map
        (fun nf => (e.1 ++ [nf.1],
                    pyNormpath (addonId :: (relpath e.1 base ++ [nf.1]))))
      ++ zipEntriesGo addonId base rest

def Addon.create_zip_entries (a : Addon) (t : DirTree) : List (FsPath × FsPath) :=
  zipEntriesGo a.id a.path (walk a.path t)

/-- `os.chdir('..')`: the parent of the current directory. -/
def os_chdir_parent (cwd : FsPath) : FsPath := cwd.dropLast

/-- The working directory after `Addon.create_release` returns: the body
runs `os.chdir(self._path)`, copies the auxiliary files (each wrapped in
`try/except IOError`), then runs `os.chdir('..')`. -/
def Addon.create_release_cwd (a : Addon) (cwd0 : FsPath) : FsPath :=
  let cwd1 := a.path
  os_chdir_parent cwd1

/-- The force argument of `update`: Python `False`, `True`, or an add-on
id string. -/
inductive ForceArg where
  | noForce
  | forceAll
  | forceId (s : String)
deriving DecidableEq

/-- `force_update is True or force_update == addon.id` (`False` and
`True` never compare equal to a string in Python). -/
def forceHit (force_update : ForceArg) (addonId : String) : Bool :=
  match force_update with
  | .noForce => false
  | .forceAll => true
  | .forceId s => s == addonId

/-- `RepoUpdate` state after `__init__`: the source root path, the source
directory tree, and `self._xml` (the root of the existing manifest, or
`None`). -/
structure RepoUpdate where
  source_root : FsPath
  tree : DirTree
  xml : Option XmlElem

/-- Manifest loading in `RepoUpdate.__init__`:
`try: self._xml = ET.parse(xml_path).getroot() except IOError: self._xml = None`.
A missing file (`IOError`) yields `None`; a malformed file
(`ET.ParseError`) propagates out of the constructor. -/
def RepoUpdate.loadManifest (file : Option FileContent) :
    Except AddonError (Option XmlElem) :=
  match file with
  | none => .ok none
  | some c =>
    match ET_parse c with
    | .ok e => .ok (some e)
    | .error err => .error err

/-- `RepoUpdate._addons`: for each walked directory that directly contains
`addon.xml` and does not directly contain `.repoignore`, construct the
`Addon`; `ET.ParseError` is caught (the package is skipped), every other
exception propagates. -/
def addonsGo : List (FsPath × List (String × FileContent)) → Except AddonError (List Addon)
  | [] => .ok []
  | (root, files) :: rest =>
    match files.lookup "addon.xml", files.lookup ".repoignore" with
    | some content, none =>
      match Addon.init content (root ++ ["addon.xml"]) with
      | .ok a =>
        match addonsGo rest with
        | .ok l => .ok (a :: l)
        | .error e => .error e
      | .error .parseError => addonsGo rest
      | .error e => .error e
    | _, _ => addonsGo rest

def RepoUpdate.addonsIn (source_root : FsPath) (t : DirTree) :
    Except AddonError (List Addon) :=
  addonsGo (walk source_root t)

/-- `self._xml.find("addon[@id='...']")`: the first child of the manifest
root with tag `addon` and that `id` attribute. -/
def XmlElem.find_addon (x : XmlElem) (addon_id : String) : Option XmlElem :=
  x.children.find? (fun c => c.tag == "addon" && lookupAttr c "id" == some addon_id)

/-- `RepoUpdate._needs_update(addon_id, version)`.  A manifest entry
without a `version` attribute raises `KeyError`; a non-integer component
raises `ValueError`. -/
def needs_update (xml : Option XmlElem) (addon_id : String) (version : List Int) :
    Except AddonError Bool :=
  match xml with
  | some x =>
    match x.find_addon addon_id with
    | none => .ok true
    | some repo_addon =>
      match lookupAttr repo_addon "version" with
      | none => .error (.keyError "version")
      | some vs =>
        match version_parts vs with
        | none => .error .valueError
        | some v => .ok (pyListLt v version)
  | none => .ok true

/-- The observable outcome of one `update()` run: the discovered add-ons
(in discovery order), the per-add-on release decision, the add-ons for
which `create_release` was invoked, the contents written to
`addons.xml` and `addons.xml.md5` (or `none`), and which of the two
final messages was printed. -/
structure UpdateResult where
  found : List Addon
  decisions : List (Addon × Bool)
  released : List Addon
  written : Option (String × String)
  printedNoUpdate : Bool
  printedNoAddons : Bool
deriving DecidableEq

instance : Inhabited UpdateResult :=
  ⟨{ found := [], decisions := [], released := [], written := none,
     printedNoUpdate := false, printedNoAddons := false }⟩

/-- The per-add-on loop of `update`: evaluate
`self._needs_update(addon.id, addon.version) or force_update is True or
force_update == addon.id` for each discovered add-on, in order
(`_needs_update` is evaluated first, so its exceptions propagate even
under force). -/
def updateLoop (xml : Option XmlElem) (force_update : ForceArg) :
    List Addon → Except AddonError (List (Addon × Bool))
  | [] => .ok []
  | a :: rest =>
    match needs_update xml a.id a.version with
    | .error e => .error e
    | .ok nu =>
      match updateLoop xml force_update rest with
      | .error e => .error e
      | .ok ds => .ok ((a, nu || forceHit force_update a.id) :: ds)

/-- `RepoUpdate.update(force_update, force_xml)`.  `tostring` models
`ET.tostring(element, encoding='UTF-8')` and `md5hex` models
`hashlib.md5(xml).hexdigest()`. -/
def RepoUpdate.update (r : RepoUpdate) (tostring : XmlElem → String)
    (md5hex : String → String) (force_update : ForceArg) (force_xml : Bool) :
    Except AddonError UpdateResult :=
  match RepoUpdate.addonsIn r.source_root r.tree with
  | .error e => .error e
  | .ok addons =>
    if addons.isEmpty then
      .ok { found := [], decisions := [], released := [], written := none,
            printedNoUpdate := false, printedNoAddons := true }
    else
      match updateLoop r.xml force_update addons with
      | .error e => .error e
      | .ok decisions =>
        let released := (decisions.filter (fun d => d.2)).map (fun d => d.1)
        let update_required := force_xml || decisions.any (fun d => d.2)
        if update_required then
          let xmlStr := tostring (XmlElem.mk "addons" [] (addons.map Addon.tree))
          .ok { found := addons, decisions := decisions, released := released,
                written := some (xmlStr, md5hex xmlStr),
                printedNoUpdate := false, printedNoAddons := false }
        else
          .ok { found := addons, decisions := decisions, released := released,
                written := none, printedNoUpdate := true, printedNoAddons := false }

/-- Extract the result of a run that succeeded. -/
def okResult (e : Except AddonError UpdateResult) : UpdateResult :=
  match e with
  | .ok r => r
  | .error _ => default

/-- The first add-on of a successful discovery. -/
def headAddon (e : Except AddonError (List Addon)) : Addon :=
  match e with
  | .ok (a :: _) => a
  | _ => default

theorem pyListLt_irrefl : ∀ v : List Int, pyListLt v v = false
  | [] => rfl
  | a :: as => by simp [pyListLt, pyListLt_irrefl as]

/-- Invariant of a constructed `Addon`: its fields agree with its
descriptor element. -/
def Addon.wf (a : Addon) : Prop :=
  lookupAttr a.tree "id" = some a.id ∧
  lookupAttr a.tree "version" = some a.version_str ∧
  version_parts a.version_str = some a.version

theorem Addon.init_ok {content : FileContent} {p : FsPath} {a : Addon}
    (h : Addon.init content p = .ok a) :
    content = .xmlDoc a.tree ∧ a.wf ∧ a.path = p.dropLast := by
  cases content with
  | raw => simp [Addon.init, ET_parse] at h
  | xmlDoc t =>
    simp only [Addon.init, ET_parse] at h
    split at h
    next => exact absurd h (by simp)
    next i hid =>
      split at h
      next => exact absurd h (by simp)
      next vs hv =>
        split at h
        next => exact absurd h (by simp)
        next v hp =>
          injection h with h2
          subst h2
          exact ⟨rfl, ⟨hid, hv, hp⟩, rfl⟩

theorem addonsGo_wf :
    ∀ entries l, addonsGo entries = .ok l → ∀ a ∈ l, a.wf := by
  intro entries
  induction entries with
  | nil =>
    intro l h a ha
    injection h with h'
    subst h'
    exact absurd ha (by simp)
  | cons e rest ih =>
    intro l h a ha
    obtain ⟨root, files⟩ := e
    simp only [addonsGo] at h
    split at h
    next content hax hrig =>
      split at h
      next a' hinit =>
        split at h
        next l' hrest =>
          injection h with h'
          subst h'
          rcases List.mem_cons.mp ha with rfl | hmem
          · exact (Addon.init_ok hinit).2.1
          · exact ih l' hrest a hmem
        next e' hrest => exact absurd h (by simp)
      next hinit => exact ih l h a ha
      next err hne hinit => exact absurd h (by simp)
    next hother => exact ih l h a ha

theorem updateLoop_ok_mem {xml : Option XmlElem} {fu : ForceArg} :
    ∀ {l : List Addon} {ds : List (Addon × Bool)}, updateLoop xml fu l = .ok ds →
      ∀ a b, (a, b) ∈ ds →
        ∃ nu, needs_update xml a.id a.version = .ok nu ∧ b = (nu || forceHit fu a.id) := by
  intro l
  induction l with
  | nil =>
    intro ds h a b hab
    injection h with h'
    subst h'
    exact absurd hab (by simp)
  | cons x rest ih =>
    intro ds h a b hab
    simp only [updateLoop] at h
    split at h
    next e hnu => exact absurd h (by simp)
    next nu hnu =>
      split at h
      next e hrest => exact absurd h (by simp)
      next ds' hrest =>
        injection h with h'
        subst h'
        rcases List.mem_cons.mp hab with heq | hmem
        · obtain ⟨rfl, rfl⟩ := Prod.mk.injEq .. ▸ heq
          exact ⟨nu, hnu, rfl⟩
        · exact ih hrest a b hmem

theorem updateLoop_fst {xml : Option XmlElem} {fu : ForceArg} :
    ∀ {l : List Addon} {ds : List (Addon × Bool)}, updateLoop xml fu l = .ok ds →
      ds.map Prod.fst = l := by
  intro l
  induction l with
  | nil =>
    intro ds h
    injection h with h2
    subst h2
    rfl
  | cons x rest ih =>
    intro ds h
    simp only [updateLoop] at h
    split at h
    next e hnu => exact absurd h (by simp)
    next nu hnu =>
      split at h
      next e hrest => exact absurd h (by simp)
      next ds' hrest =>
        injection h with h2
        subst h2
        simp [ih hrest]

theorem updateLoop_const_false {xml : Option XmlElem} :
    ∀ {l : List Addon}, (∀ a ∈ l, needs_update xml a.id a.version = .ok false) →
      updateLoop xml .noForce l = .ok (l.map (fun a => (a, false))) := by
  intro l
  induction l with
  | nil => intro _; rfl
  | cons x rest ih =>
    intro hall
    have hx := hall x (List.mem_cons_self x rest)
    simp only [updateLoop, hx, ih (fun a ha => hall a (List.mem_cons_of_mem x ha))]
    rfl

/-- The element accumulated by `update`:
`ET.Element('addons')` with each discovered add-on's descriptor appended. -/
def manifestElement (addons : List Addon) : XmlElem :=
  XmlElem.mk "addons" [] (addons.map Addon.tree)

theorem update_ok_spec {r0 : RepoUpdate} {ts : XmlElem → String}
    {md : String → String} {fu : ForceArg} {fx : Bool} {r : UpdateResult}
    (h : RepoUpdate.update r0 ts md fu fx = .ok r) :
    RepoUpdate.addonsIn r0.source_root r0.tree = .ok r.found ∧
    updateLoop r0.xml fu r.found = .ok r.decisions ∧
    r.released = (r.decisions.filter (fun d => d.2)).map (fun d => d.1) ∧
    r.written = (if r.found.isEmpty || !(fx || r.decisions.any (fun d => d.2))
                 then none
                 else some (ts (manifestElement r.found),
                            md (ts (manifestElement r.found)))) ∧
    r.printedNoUpdate = (!r.found.isEmpty && !(fx || r.decisions.any (fun d => d.2))) := by
  unfold RepoUpdate.update at h
  split at h
  next e ha => exact absurd h (by simp)
  next addons ha =>
    split at h
    next he =>
      injection h with h2
      subst h2
      have hnil : addons = [] := by
        cases addons with
        | nil => rfl
        | cons x xs => simp [List.isEmpty] at he
      subst hnil
      refine ⟨ha, rfl, rfl, by simp, by simp⟩
    next he =>
      cases addons with
      | nil => simp [List.isEmpty] at he
      | cons a0 arest =>
        split at h
        next e hloop => exact absurd h (by simp)
        next ds hloop =>
          dsimp only at h
          split at h
          next hreq =>
            injection h with h2
            subst h2
            refine ⟨ha, hloop, rfl, ?_, ?_⟩
            · simp [manifestElement, hreq]
            · simp [hreq]
          next hreq =>
            have hreqf : (fx || ds.any fun d => d.2) = false := by
              simpa using hreq
            injection h with h2
            subst h2
            refine ⟨ha, hloop, rfl, ?_, ?_⟩
            · simp [hreqf]
            · simp [hreqf]

theorem needs_update_ok_true_iff (xml : Option XmlElem) (i : String) (v : List Int) :
    needs_update xml i v = .ok true ↔
      (xml = none ∨
       (∃ x, xml = some x ∧ x.find_addon i = none) ∨
       (∃ x e vs w, xml = some x ∧ x.find_addon i = some e ∧
          lookupAttr e "version" = some vs ∧ version_parts vs = some w ∧
          pyListLt w v = true)) := by
  cases xml with
  | none => simp [needs_update]
  | some x =>
    simp only [needs_update]
    cases hf : x.find_addon i with
    | none => simp [hf]
    | some e =>
      cases hv : lookupAttr e "version" with
      | none => simp [hf, hv]
      | some vs =>
        cases hp : version_parts vs with
        | none => simp [hf, hv, hp]
        | some w => simp [hf, hv, hp]

theorem find_addon_self {addons : List Addon} {a : Addon}
    (hwf : ∀ x ∈ addons, x.wf) (htag : ∀ x ∈ addons, x.tree.tag = "addon")
    (hnd : (addons.map Addon.id).Nodup) (ha : a ∈ addons) :
    (manifestElement addons).find_addon a.id = some a.tree := by
  induction addons with
  | nil => exact absurd ha (by simp)
  | cons b rest ih =>
    have hbid : lookupAttr b.tree "id" = some b.id := (hwf b (by simp)).1
    have hbtag : b.tree.tag = "addon" := htag b (by simp)
    by_cases hid : b.id = a.id
    · have hab : a = b := by
        rcases List.mem_cons.mp ha with h | hmem
        · exact h
        · exfalso
          have hin : a.id ∈ rest.map Addon.id := List.mem_map_of_mem _ hmem
          rw [← hid] at hin
          exact (List.nodup_cons.mp hnd).1 hin
      subst hab
      simp only [manifestElement, XmlElem.find_addon, XmlElem.children, List.map_cons]
      rw [List.find?_cons_of_pos]
      simp [hbtag, hbid, hid]
    · have hmem : a ∈ rest := by
        rcases List.mem_cons.mp ha with h | hmem
        · exact absurd (h ▸ rfl) hid
        · exact hmem
      have hrec := ih (fun x hx => hwf x (List.mem_cons_of_mem b hx))
        (fun x hx => htag x (List.mem_cons_of_mem b hx))
        (List.nodup_cons.mp hnd).2 hmem
      simp only [manifestElement, XmlElem.find_addon, XmlElem.children, List.map_cons]
      rw [List.find?_cons_of_neg]
      · simpa [manifestElement, XmlElem.find_addon, XmlElem.children] using hrec
      · simp [hbtag, hbid, hid]

theorem needs_update_self {addons : List Addon} {a : Addon}
    (hwf : ∀ x ∈ addons, x.wf) (htag : ∀ x ∈ addons, x.tree.tag = "addon")
    (hnd : (addons.map Addon.id).Nodup) (ha : a ∈ addons) :
    needs_update (some (manifestElement addons)) a.id a.version = .ok false := by
  have hf := find_addon_self hwf htag hnd ha
  have haw := hwf a ha
  simp [needs_update, hf, haw.2.1, haw.2.2, pyListLt_irrefl]

/-- The selection rule of `_addons`: `'addon.xml' in filenames and
'.repoignore' not in filenames`. -/
def selectedDir (files : List (String × FileContent)) : Bool :=
  (files.lookup "addon.xml").isSome && (files.lookup ".repoignore").isNone

/-- A walked directory whose descriptor (if selected) constructs
successfully. -/
def entryOk (e : FsPath × List (String × FileContent)) : Bool :=
  match e.2.lookup "addon.xml", e.2.lookup ".repoignore" with
  | some c, none => (Addon.init c (e.1 ++ ["addon.xml"])).isOk
  | _, _ => true

theorem addonsGo_all_ok :
    ∀ entries : List (FsPath × List (String × FileContent)),
      entries.all entryOk = true →
      ∃ l, addonsGo entries = .ok l ∧
        l.map Addon.path = (entries.filter (fun e => selectedDir e.2)).map Prod.fst := by
  intro entries
  induction entries with
  | nil => intro _; exact ⟨[], rfl, rfl⟩
  | cons e rest ih =>
    intro h
    obtain ⟨he, hrest⟩ : entryOk e = true ∧ rest.all entryOk = true := by
      simpa using h
    obtain ⟨l, hl, hpaths⟩ := ih hrest
    obtain ⟨root, files⟩ := e
    simp only [addonsGo]
    cases hax : files.lookup "addon.xml" with
    | none =>
      refine ⟨l, hl, ?_⟩
      simpa [selectedDir, hax] using hpaths
    | some c =>
      cases hrig : files.lookup ".repoignore" with
      | some c2 =>
        refine ⟨l, hl, ?_⟩
        simpa [selectedDir, hax, hrig] using hpaths
      | none =>
        have hok : (Addon.init c (root ++ ["addon.xml"])).isOk = true := by
          simpa [entryOk, hax, hrig] using he
        dsimp only
        cases hinit : Addon.init c (root ++ ["addon.xml"]) with
        | error err =>
          rw [hinit] at hok
          exact absurd hok (by simp [Except.isOk, Except.toBool])
        | ok a =>
          rw [hl]
          refine ⟨a :: l, rfl, ?_⟩
          have hpath : a.path = root := by
            have h2 := (Addon.init_ok hinit).2.2
            simpa [List.dropLast_concat] using h2
          simp [selectedDir, hax, hrig, hpath, hpaths]

mutual
theorem walk_shift : ∀ (p : FsPath) (t : DirTree),
    walk p t = (walk [] t).map (fun e => (p ++ e.1, e.2))
  | p, .node subdirs files => by
    simp only [walk, List.map_cons, List.append_nil]
    rw [walkList_shift p subdirs]

theorem walkList_shift : ∀ (p : FsPath) (l : List (String × DirTree)),
    walkList p l = (walkList [] l).map (fun e => (p ++ e.1, e.2))
  | p, [] => by simp [walkList]
  | p, (n, t) :: rest => by
    simp only [walkList, List.map_append]
    rw [walk_shift (p ++ [n]) t, walk_shift ([] ++ [n]) t,
      walkList_shift p rest, List.map_map]
    congr 1
    apply List.map_congr_left
    intro e _
    simp [List.append_assoc]
end

theorem commonPrefixLen_append (p q : List String) :
    commonPrefixLen (p ++ q) p = p.length := by
  induction p with
  | nil => cases q <;> rfl
  | cons a as ih => simp [commonPrefixLen, ih]

theorem relpath_append (p q : List String) :
    relpath (p ++ q) p = if q = [] then ["."] else q := by
  unfold relpath
  rw [commonPrefixLen_append]
  simp [List.drop_left]

/-- A path component that a real filesystem directory or file can have
(neither empty nor one of the two special entries). -/
def saneName (s : String) : Bool := (s != "") && (s != ".") && (s != "..")

theorem normpath_go_sane : ∀ (l acc : List String), l.all saneName = true →
    normpath_go acc l = acc ++ l
  | [], acc, _ => by simp [normpath_go]
  | c :: cs, acc, h => by
    obtain ⟨hc, hcs⟩ : saneName c = true ∧ cs.all saneName = true := by simpa using h
    obtain ⟨⟨h1, h2⟩, h3⟩ : (c ≠ "" ∧ c ≠ ".") ∧ c ≠ ".." := by simpa [saneName] using hc
    rw [show normpath_go acc (c :: cs) = normpath_go (acc ++ [c]) cs from by
      simp [normpath_go, h1, h2, h3]]
    rw [normpath_go_sane cs (acc ++ [c]) hcs]
    simp

theorem zip_arcname (aid : String) (base q : List String) (f : String)
    (hid : saneName aid = true) (hq : q.all saneName = true)
    (hf : saneName f = true) :
    pyNormpath (aid :: (relpath (base ++ q) base ++ [f])) = aid :: (q ++ [f]) := by
  obtain ⟨⟨g1, g2⟩, g3⟩ : (aid ≠ "" ∧ aid ≠ ".") ∧ aid ≠ ".." := by simpa [saneName] using hid
  obtain ⟨⟨e1, e2⟩, e3⟩ : (f ≠ "" ∧ f ≠ ".") ∧ f ≠ ".." := by simpa [saneName] using hf
  rw [relpath_append]
  by_cases hq0 : q = []
  · subst hq0
    rw [if_pos rfl]
    simp [pyNormpath, normpath_go, g1, g2, g3, e1, e2, e3]
  · rw [if_neg hq0]
    have hall : (aid :: (q ++ [f])).all saneName = true := by
      simp [hid, hf, List.all_append]
      intro x hx
      have := List.all_eq_true.mp hq x hx
      simpa using this
    unfold pyNormpath
    rw [normpath_go_sane _ [] hall]
    simp

/-- The full recursive listing a correct archive should contain: every
file under the walk whose extension is allow-listed, stored at
`id/<relative path>` (claim-side restatement of the archive layout). -/
def fullZipListing (aid : String) (base : FsPath) :
    List (FsPath × List (String × FileContent)) → List (FsPath × FsPath)
  | [] => []
  | e :: rest =>
      (e.2.filter (fun nf => EXTS.contains (splitext_ext nf.1))).map
        (fun nf => (base ++ (e.1 ++ [nf.1]), aid :: (e.1 ++ [nf.1])))
      ++ fullZipListing aid base rest

/-- Sanity of one walked entry: its relative path components and its file
names are real directory-entry names. -/
def saneEntry (e : FsPath × List (String × FileContent)) : Bool :=
  e.1.all saneName && e.2.all (fun nf => saneName nf.1)

theorem zipEntriesGo_shift (aid : String) (base : FsPath)
    (hid : saneName aid = true) :
    ∀ l : List (FsPath × List (String × FileContent)), l.all saneEntry = true →
      zipEntriesGo aid base (l.map (fun e => (base ++ e.1, e.2))) =
        fullZipListing aid base l
  | [], _ => rfl
  | e :: rest, h => by
    obtain ⟨he, hrest⟩ : saneEntry e = true ∧ rest.all saneEntry = true := by
      simpa using h
    obtain ⟨hp, hfs⟩ : e.1.all saneName = true ∧
        e.2.all (fun nf => saneName nf.1) = true := by simpa [saneEntry] using he
    simp only [List.map_cons, zipEntriesGo, fullZipListing]
    rw [zipEntriesGo_shift aid base hid rest hrest]
    congr 1
    apply List.map_congr_left
    intro nf hnf
    have hmem : nf ∈ e.2 := (List.mem_filter.mp hnf).1
    have hfname : saneName nf.1 = true := by
      have := List.all_eq_true.mp hfs nf hmem
      simpa using this
    rw [zip_arcname aid base e.1 nf.1 hid hp hfname]
    simp [List.append_assoc]

theorem create_zip_entries_spec (a : Addon) (t : DirTree)
    (hid : saneName a.id = true)
    (hsane : (walk [] t).all saneEntry = true) :
    a.create_zip_entries t = fullZipListing a.id a.path (walk [] t) := by
  unfold Addon.create_zip_entries
  rw [walk_shift a.path t]
  exact zipEntriesGo_shift a.id a.path hid (walk [] t) hsane

/-- A stand-in for `ET.tostring` in concrete witness runs (the tool treats
the serializer as an opaque deterministic function). -/
def tsStub : XmlElem → String := fun e => e.tag

/-- A stand-in for `hashlib.md5(..).hexdigest()` in concrete witness
runs. -/
def md5Stub : String → String := fun s => s ++ ".d41d8cd9"

/-- A source tree holding one add-on, `demo` at version 2.0. -/
def demoTree : DirTree :=
  .node [("demo.dir", .node []
    [("addon.xml", .xmlDoc (.mk "addon" [("id", "demo"), ("version", "2.0")] []))])] []

/-- An existing manifest that knows `demo` only at version 1.0. -/
def demoManifest : XmlElem :=
  .mk "addons" [] [.mk "addon" [("id", "demo"), ("version", "1.0")] []]

def demoRun : Except AddonError UpdateResult :=
  RepoUpdate.update ⟨["src"], demoTree, some demoManifest⟩ tsStub md5Stub .noForce false

def demoAddon : Addon := headAddon (RepoUpdate.addonsIn ["src"] demoTree)

/-- A source tree whose single descriptor has root tag `plugin` rather
than `addon`. -/
def c4TreeA : DirTree :=
  .node [("a1", .node []
    [("addon.xml", .xmlDoc (.mk "plugin" [("id", "x"), ("version", "1.0")] []))])] []

def c4RunA1 : Except AddonError UpdateResult :=
  RepoUpdate.update ⟨["s"], c4TreeA, none⟩ tsStub md5Stub .noForce false

def c4RunA2 : Except AddonError UpdateResult :=
  RepoUpdate.update ⟨["s"], c4TreeA, some (manifestElement (okResult c4RunA1).found)⟩
    tsStub md5Stub .noForce false

/-- A source tree with two add-on directories sharing the identifier `y`
at different versions. -/
def c4TreeB : DirTree :=
  .node [("b1", .node []
            [("addon.xml", .xmlDoc (.mk "addon" [("id", "y"), ("version", "1.0")] []))]),
         ("b2", .node []
            [("addon.xml", .xmlDoc (.mk "addon" [("id", "y"), ("version", "2.0")] []))])] []

def c4RunB1 : Except AddonError UpdateResult :=
  RepoUpdate.update ⟨["s"], c4TreeB, none⟩ tsStub md5Stub .noForce false

def c4RunB2 : Except AddonError UpdateResult :=
  RepoUpdate.update ⟨["s"], c4TreeB, some (manifestElement (okResult c4RunB1).found)⟩
    tsStub md5Stub .noForce false

/-- A source tree whose first descriptor parses but lacks the `id`
attribute, followed by a well-formed one. -/
def c6Tree : DirTree :=
  .node [("bad", .node []
            [("addon.xml", .xmlDoc (.mk "addon" [("version", "1.0")] []))]),
         ("good", .node []
            [("addon.xml", .xmlDoc (.mk "addon" [("id", "g"), ("version", "1.0")] []))])] []

/-- A directory containing both `addon.xml` and `.repoignore`, whose
subdirectory contains its own valid `addon.xml`. -/
def c7Tree : DirTree :=
  .node [("parent", .node
    [("child", .node []
       [("addon.xml", .xmlDoc (.mk "addon" [("id", "c"), ("version", "1.0")] []))])]
    [("addon.xml", .xmlDoc (.mk "addon" [("id", "p"), ("version", "1.0")] [])),
     (".repoignore", .raw)])] []

/-- Source files for an add-on with identifier `myaddon` living in a
directory whose on-disk name differs from the identifier. -/
def c8Inner : DirTree :=
  .node [("resources", .node [] [("code.py", .raw), ("strings.xml", .raw)])]
        [("addon.xml", .xmlDoc (.mk "addon" [("id", "myaddon"), ("version", "1.0.0")] [])),
         ("icon.png", .raw), ("notes.md", .raw), ("fanart.jpg", .raw)]

def c8Tree : DirTree := .node [("weird.folder", c8Inner)] []

def c8Addon : Addon := headAddon (RepoUpdate.addonsIn ["src"] c8Tree)

/-- An add-on nested two levels below the source root. -/
def c9Tree : DirTree :=
  .node [("grp", .node
    [("addonA", .node []
       [("addon.xml", .xmlDoc (.mk "addon" [("id", "a.b"), ("version", "1.0")] []))])] [])] []

def c9Addon : Addon := headAddon (RepoUpdate.addonsIn ["src"] c9Tree)

/-- A manifest whose entry for `a` is at version `1.2`. -/
def m12 : XmlElem :=
  .mk "addons" [] [.mk "addon" [("id", "a"), ("version", "1.2")] []]

/-- A manifest whose entry for `a` is at version `1.2.0`. -/
def m120 : XmlElem :=
  .mk "addons" [] [.mk "addon" [("id", "a"), ("version", "1.2.0")] []]

theorem forceHit_iff (fu : ForceArg) (i : String) :
    forceHit fu i = true ↔ (fu = .forceAll ∨ fu = .forceId i) := by
  cases fu <;> simp [forceHit]

/-- Claim C1: for every discovered package, `update()` invokes
`create_release` for that package if and only if
`_needs_update(id, version)` is true, or `force_update` is `True`, or
`force_update` equals that package's identifier; and `_needs_update` is
true exactly when no manifest was loaded, the manifest has no `addon`
entry with that identifier, or the entry's version tuple is strictly
less than the package's under integer-tuple ordering (so `"10.0"`
compares greater than `"9.0"`, unlike string comparison). -/
theorem claim1_release_decision (src : FsPath) (t : DirTree) (xml0 : Option XmlElem)
    (ts : XmlElem → String) (md : String → String) (fu : ForceArg) (fx : Bool)
    (r : UpdateResult) (a : Addon) (b : Bool)
    (h : RepoUpdate.update ⟨src, t, xml0⟩ ts md fu fx = .ok r)
    (hab : (a, b) ∈ r.decisions) :
    (b = true ↔
      (needs_update xml0 a.id a.version = .ok true ∨
       fu = .forceAll ∨ fu = .forceId a.id)) ∧
    (needs_update xml0 a.id a.version = .ok true ↔
      (xml0 = none ∨
       (∃ x, xml0 = some x ∧ x.find_addon a.id = none) ∨
       (∃ x e vs w, xml0 = some x ∧ x.find_addon a.id = some e ∧
          lookupAttr e "version" = some vs ∧ version_parts vs = some w ∧
          pyListLt w a.version = true))) ∧
    r.decisions.map Prod.fst = r.found ∧
    r.released = (r.decisions.filter (fun d => d.2)).map (fun d => d.1) ∧
    version_parts "10.0" = some [10, 0] ∧ version_parts "9.0" = some [9, 0] ∧
    pyListLt [9, 0] [10, 0] = true := by
  obtain ⟨ha, hloop, hrel, hwr, hpr⟩ := update_ok_spec h
  obtain ⟨nu, hnu, hb⟩ := updateLoop_ok_mem hloop a b hab
  refine ⟨?_, needs_update_ok_true_iff xml0 a.id a.version,
    updateLoop_fst hloop, hrel, by decide, by decide, by decide⟩
  subst hb
  rw [hnu]
  simp only [Bool.or_eq_true, forceHit_iff fu a.id]
  constructor
  · rintro (hnut | hforce)
    · exact Or.inl (by rw [hnut])
    · exact Or.inr hforce
  · rintro (hnut | hforce)
    · exact Or.inl (by injection hnut)
    · exact Or.inr hforce

/-- Claim C1 witness: a concrete run against a manifest holding `demo`
at 1.0 while the source holds 2.0; the release decision for `demo` is
true. -/
theorem claim1_release_decision_witness :
    ((true : Bool) = true ↔
      (needs_update (some demoManifest) demoAddon.id demoAddon.version = .ok true ∨
       ForceArg.noForce = .forceAll ∨ ForceArg.noForce = .forceId demoAddon.id)) ∧
    (needs_update (some demoManifest) demoAddon.id demoAddon.version = .ok true ↔
      (some demoManifest = none ∨
       (∃ x, some demoManifest = some x ∧ x.find_addon demoAddon.id = none) ∨
       (∃ x e vs w, some demoManifest = some x ∧ x.find_addon demoAddon.id = some e ∧
          lookupAttr e "version" = some vs ∧ version_parts vs = some w ∧
          pyListLt w demoAddon.version = true))) ∧
    (okResult demoRun).decisions.map Prod.fst = (okResult demoRun).found ∧
    (okResult demoRun).released =
      ((okResult demoRun).decisions.filter (fun d => d.2)).map (fun d => d.1) ∧
    version_parts "10.0" = some [10, 0] ∧ version_parts "9.0" = some [9, 0] ∧
    pyListLt [9, 0] [10, 0] = true :=
  claim1_release_decision ["src"] demoTree (some demoManifest) tsStub md5Stub
    .noForce false (okResult demoRun) demoAddon true (by rfl) (by decide)

/-- Claim C5: at construction, a missing manifest file (`IOError`) is
caught and treated as no prior manifest — under which `_needs_update`
reports every package as new — while a manifest file that exists but is
malformed raises `ET.ParseError`, which is not caught and propagates out
of construction. -/
theorem claim5_manifest_loading (e : XmlElem) (i : String) (v : List Int) :
    RepoUpdate.loadManifest none = .ok none ∧
    RepoUpdate.loadManifest (some (.xmlDoc e)) = .ok (some e) ∧
    RepoUpdate.loadManifest (some .raw) = .error .parseError ∧
    needs_update none i v = .ok true :=
  ⟨rfl, rfl, rfl, rfl⟩

/-- Claim C10: a version tuple that is a proper prefix of another
compares strictly less, so a manifest entry at `1.2` against discovered
`1.2.0` needs a release, while an entry at `1.2.0` against discovered
`1.2` does not. -/
theorem claim10_prefix_version :
    version_parts "1.2" = some [1, 2] ∧ version_parts "1.2.0" = some [1, 2, 0] ∧
    pyListLt [1, 2] [1, 2, 0] = true ∧ pyListLt [1, 2, 0] [1, 2] = false ∧
    needs_update (some m12) "a" [1, 2, 0] = .ok true ∧
    needs_update (some m120) "a" [1, 2] = .ok false := by decide

/-- Claim C2: whenever a run of `update()` discovers a non-empty package
list and writes the manifest, the written manifest is the serialization
of an `addons` document whose children are exactly the verbatim
descriptor elements of the discovered packages, one per package, in
discovery order — rebuilt in full from this run's discoveries. -/
theorem claim2_manifest_complete (src : FsPath) (t : DirTree) (xml0 : Option XmlElem)
    (ts : XmlElem → String) (md : String → String) (fu : ForceArg) (fx : Bool)
    (r : UpdateResult) (w : String × String)
    (h : RepoUpdate.update ⟨src, t, xml0⟩ ts md fu fx = .ok r)
    (hne : r.found ≠ []) (hw : r.written = some w) :
    ∃ doc : XmlElem, w.1 = ts doc ∧ doc.tag = "addons" ∧
      doc.children = r.found.map Addon.tree := by
  obtain ⟨ha, hloop, hrel, hwr, hpr⟩ := update_ok_spec h
  rw [hw] at hwr
  split at hwr
  · exact absurd hwr (by simp)
  · refine ⟨manifestElement r.found, ?_, rfl, rfl⟩
    injection hwr with hwr2
    rw [hwr2]

/-- Claim C2 witness: the concrete `demo` run writes a manifest whose
document holds exactly the one discovered descriptor. -/
theorem claim2_manifest_complete_witness :
    ∃ doc : XmlElem, ("addons", "addons.d41d8cd9").1 = tsStub doc ∧
      doc.tag = "addons" ∧
      doc.children = (okResult demoRun).found.map Addon.tree :=
  claim2_manifest_complete ["src"] demoTree (some demoManifest) tsStub md5Stub
    .noForce false (okResult demoRun) ("addons", "addons.d41d8cd9")
    (by rfl) (by decide) (by rfl)

/-- Claim C3: whenever `update()` writes its output files, the checksum
file's content is the digest function applied to the exact string
written to the manifest file in the same run. -/
theorem claim3_checksum (src : FsPath) (t : DirTree) (xml0 : Option XmlElem)
    (ts : XmlElem → String) (md : String → String) (fu : ForceArg) (fx : Bool)
    (r : UpdateResult) (x c : String)
    (h : RepoUpdate.update ⟨src, t, xml0⟩ ts md fu fx = .ok r)
    (hw : r.written = some (x, c)) :
    c = md x := by
  obtain ⟨ha, hloop, hrel, hwr, hpr⟩ := update_ok_spec h
  rw [hw] at hwr
  split at hwr
  · exact absurd hwr (by simp)
  · injection hwr with hwr2
    obtain ⟨h1, h2⟩ := Prod.mk.injEq .. ▸ hwr2
    rw [h1, h2]

/-- Claim C3 witness: in the concrete `demo` run the checksum file
content is the digest of the manifest file content. -/
theorem claim3_checksum_witness : "addons.d41d8cd9" = md5Stub "addons" :=
  claim3_checksum ["src"] demoTree (some demoManifest) tsStub md5Stub
    .noForce false (okResult demoRun) "addons" "addons.d41d8cd9"
    (by rfl) (by rfl)

theorem update_no_release {r0 : RepoUpdate} {ts : XmlElem → String}
    {md : String → String} {addons : List Addon}
    (ha : RepoUpdate.addonsIn r0.source_root r0.tree = .ok addons)
    (hne : addons ≠ [])
    (hall : ∀ a ∈ addons, needs_update r0.xml a.id a.version = .ok false) :
    RepoUpdate.update r0 ts md .noForce false =
      .ok { found := addons, decisions := addons.map (fun a => (a, false)),
            released := [], written := none,
            printedNoUpdate := true, printedNoAddons := false } := by
  have hne2 : addons.isEmpty = false := by
    cases hfound : addons with
    | nil => exact absurd hfound hne
    | cons x xs => rfl
  have hloop2 := updateLoop_const_false hall
  have hany : (addons.map (fun a => (a, false))).any (fun d => d.2) = false := by
    simp
  have hrelnil : ((addons.map (fun a => (a, false))).filter
      (fun d => d.2)).map (fun d => d.1) = [] := by simp
  unfold RepoUpdate.update
  simp only [ha, hne2, hloop2, hany, hrelnil, Bool.or_false]
  rfl

/-- Claim C4 (amended): running `update()` twice with an unchanged source
tree and no force flags is idempotent — the second run releases nothing,
writes nothing and reports that no repo update is required — provided
the discovered packages have pairwise distinct identifiers and every
descriptor's root tag is `addon`.  (Without those provisos the claim
fails, see the counterexample: the xpath lookup `addon[@id=..]` misses
entries with other tags, and with duplicated identifiers it always
returns the first entry.) -/
theorem claim4_idempotent (src : FsPath) (t : DirTree) (xml0 : Option XmlElem)
    (ts : XmlElem → String) (md : String → String) (r1 : UpdateResult)
    (h1 : RepoUpdate.update ⟨src, t, xml0⟩ ts md .noForce false = .ok r1)
    (hw1 : r1.written.isSome = true)
    (hnd : (r1.found.map Addon.id).Nodup)
    (htag : ∀ a ∈ r1.found, a.tree.tag = "addon") :
    ∃ r2, RepoUpdate.update ⟨src, t, some (manifestElement r1.found)⟩ ts md
        .noForce false = .ok r2 ∧
      r2.released = [] ∧ r2.written = none ∧ r2.printedNoUpdate = true := by
  obtain ⟨ha, hloop, hrel, hwr, hpr⟩ := update_ok_spec h1
  have hne : r1.found ≠ [] := by
    intro hcon
    rw [hcon] at hwr
    simp only [List.isEmpty_nil, Bool.true_or, if_pos] at hwr
    rw [hwr] at hw1
    exact absurd hw1 (by simp)
  have hwf : ∀ a ∈ r1.found, a.wf := fun a ha2 => addonsGo_wf _ _ ha a ha2
  have hall : ∀ a ∈ r1.found,
      needs_update (some (manifestElement r1.found)) a.id a.version = .ok false :=
    fun a ha2 => needs_update_self hwf htag hnd ha2
  exact ⟨_, update_no_release ha hne hall, rfl, rfl, rfl⟩

/-- Claim C4 witness: the concrete `demo` run released and wrote the
manifest; re-running against the manifest it wrote releases nothing and
reports that no update is required. -/
theorem claim4_idempotent_witness :
    ∃ r2, RepoUpdate.update ⟨["src"], demoTree,
        some (manifestElement (okResult demoRun).found)⟩ tsStub md5Stub
        .noForce false = .ok r2 ∧
      r2.released = [] ∧ r2.written = none ∧ r2.printedNoUpdate = true :=
  claim4_idempotent ["src"] demoTree (some demoManifest) tsStub md5Stub
    (okResult demoRun) (by rfl) (by rfl) (by decide) (by decide)

/-- Claim C4 counterexample: with an unchanged source tree and no force
flags, the second run is not a no-op.  Scenario A: a descriptor whose
root tag is `plugin` is re-released on every run because the
`addon[@id=..]` lookup never finds it.  Scenario B: two directories
share the identifier `y` at versions 1.0 and 2.0; the lookup always
returns the 1.0 entry, so the 2.0 package is re-released on every run.
In both, the second run does not print the no-update message. -/
theorem claim4_counterexample :
    ((okResult c4RunA1).written.isSome = true ∧
     (okResult c4RunA2).released.map Addon.id = ["x"] ∧
     (okResult c4RunA2).printedNoUpdate = false) ∧
    ((okResult c4RunB1).written.isSome = true ∧
     (okResult c4RunB2).released.map Addon.id = ["y"] ∧
     (okResult c4RunB2).printedNoUpdate = false) := by decide

/-- Claim C6 counterexample: the first walked descriptor parses as XML
but lacks the `id` attribute; the claim says discovery should skip it
and still yield the following valid package, but `_addons` catches only
`ET.ParseError`, so the `KeyError` escapes: discovery (and the whole
`update` run) aborts with it instead of returning the valid package. -/
theorem claim6_counterexample :
    RepoUpdate.addonsIn ["s"] c6Tree = .error (.keyError "id") ∧
    RepoUpdate.update ⟨["s"], c6Tree, none⟩ tsStub md5Stub .noForce false =
      .error (.keyError "id") := by decide

/-- Claim C6 (amended): a descriptor that is not parseable as XML makes
construction fail with `ET.ParseError`, which discovery catches
per-package — the package is omitted and the walk continues.  But a
descriptor that parses while missing the required `id` attribute makes
construction fail with `KeyError`, which discovery does not catch: the
error propagates and aborts the walk (likewise for a missing `version`
attribute or a non-integer version). -/
theorem claim6_skip_vs_abort (t : XmlElem) (root root2 : FsPath)
    (files files2 : List (String × FileContent))
    (rest rest2 : List (FsPath × List (String × FileContent)))
    (hid : lookupAttr t "id" = none)
    (hax : files.lookup "addon.xml" = some (.xmlDoc t))
    (hrig : files.lookup ".repoignore" = none)
    (hax2 : files2.lookup "addon.xml" = some .raw)
    (hrig2 : files2.lookup ".repoignore" = none) :
    Addon.init (.xmlDoc t) (root ++ ["addon.xml"]) = .error (.keyError "id") ∧
    addonsGo ((root, files) :: rest) = .error (.keyError "id") ∧
    Addon.init .raw (root2 ++ ["addon.xml"]) = .error .parseError ∧
    addonsGo ((root2, files2) :: rest2) = addonsGo rest2 := by
  have hbad : Addon.init (.xmlDoc t) (root ++ ["addon.xml"]) = .error (.keyError "id") := by
    simp [Addon.init, ET_parse, hid]
  refine ⟨hbad, ?_, rfl, ?_⟩
  · simp [addonsGo, hax, hrig, hbad]
  · simp [addonsGo, hax2, hrig2, Addon.init, ET_parse]

/-- Claim C6 witness: concrete directories exercising both branches of
the amended claim. -/
theorem claim6_skip_vs_abort_witness :
    Addon.init (.xmlDoc (.mk "addon" [("version", "1.0")] []))
        (["s", "bad"] ++ ["addon.xml"]) = .error (.keyError "id") ∧
    addonsGo ((["s", "bad"],
        [("addon.xml", .xmlDoc (.mk "addon" [("version", "1.0")] []))]) :: []) =
      .error (.keyError "id") ∧
    Addon.init .raw (["s", "raw"] ++ ["addon.xml"]) = .error .parseError ∧
    addonsGo ((["s", "raw"], [("addon.xml", .raw)]) ::
        [(["s", "good"],
          [("addon.xml", .xmlDoc (.mk "addon" [("id", "g"), ("version", "1.0")] []))])]) =
      addonsGo [(["s", "good"],
          [("addon.xml", .xmlDoc (.mk "addon" [("id", "g"), ("version", "1.0")] []))])] :=
  claim6_skip_vs_abort (.mk "addon" [("version", "1.0")] [])
    ["s", "bad"] ["s", "raw"]
    [("addon.xml", .xmlDoc (.mk "addon" [("version", "1.0")] []))]
    [("addon.xml", .raw)]
    []
    [(["s", "good"],
      [("addon.xml", .xmlDoc (.mk "addon" [("id", "g"), ("version", "1.0")] []))])]
    (by rfl) (by rfl) (by rfl) (by rfl) (by rfl)

/-- Claim C7: provided every selected descriptor constructs successfully,
a walked directory yields a package if and only if it directly contains
`addon.xml` and does not directly contain `.repoignore`; the packages
come out in walk order, and subdirectories of excluded directories are
still walked (the walk covers every descendant). -/
theorem claim7_selection (src : FsPath) (t : DirTree)
    (hok : (walk src t).all entryOk = true) :
    ∃ l, RepoUpdate.addonsIn src t = .ok l ∧
      l.map Addon.path =
        ((walk src t).filter (fun e => selectedDir e.2)).map Prod.fst :=
  addonsGo_all_ok (walk src t) hok

/-- Claim C7 witness: a directory with both `addon.xml` and `.repoignore`
yields no package, while its child directory still yields one. -/
theorem claim7_selection_witness :
    ∃ l, RepoUpdate.addonsIn ["s"] c7Tree = .ok l ∧
      l.map Addon.path =
        ((walk ["s"] c7Tree).filter (fun e => selectedDir e.2)).map Prod.fst :=
  claim7_selection ["s"] c7Tree (by decide)

/-- Claim C8: `create_release` puts the archive at
`destinationRoot/id/{id}-{version_str}.zip`, and the archive contains
exactly the files under the package's source directory (recursively)
whose extension is in the allow-list, each stored at
`id/<path relative to the source directory>` — rooted at the identifier
and never at the on-disk folder name (sane directory-entry names
assumed, since `normpath` is applied to each arcname). -/
theorem claim8_archive_layout (a : Addon) (t : DirTree) (repo : FsPath)
    (hid : saneName a.id = true)
    (hsane : (walk [] t).all saneEntry = true) :
    Addon.zip_path a repo =
      repo ++ [a.id, a.id ++ "-" ++ a.version_str ++ ".zip"] ∧
    a.create_zip_entries t = fullZipListing a.id a.path (walk [] t) := by
  constructor
  · simp [Addon.zip_path, Addon.toStr, List.append_assoc]
  · exact create_zip_entries_spec a t hid hsane

/-- Claim C8 witness: the add-on `myaddon` living in a folder named
`weird.folder`; its archive entries are rooted at `myaddon`. -/
theorem claim8_archive_layout_witness :
    Addon.zip_path c8Addon ["repo"] =
      ["repo"] ++ [c8Addon.id, c8Addon.id ++ "-" ++ c8Addon.version_str ++ ".zip"] ∧
    c8Addon.create_zip_entries c8Inner =
      fullZipListing c8Addon.id c8Addon.path (walk [] c8Inner) :=
  claim8_archive_layout c8Addon c8Inner ["repo"] (by decide) (by decide)

/-- Claim C9 counterexample: for an add-on two levels below the source
root, the working directory after `create_release` is the add-on's
parent directory, not the pre-call working directory: the function ends
with `os.chdir('..')` after `os.chdir(self._path)` and has no `finally`
— it does not restore the caller's working directory. -/
theorem claim9_counterexample :
    Addon.create_release_cwd c9Addon ["src"] = ["src", "grp"] ∧
    Addon.create_release_cwd c9Addon ["src"] ≠ ["src"] := by decide

/-- Claim C9 (amended): after a `create_release` call that returns
normally, the process working directory equals the parent of the
package's source directory, whatever it was before the call; it equals
the pre-call working directory only in the special case that the
pre-call directory already was that parent.  Restoration is best-effort
(`os.chdir('..')`), not a guaranteed scoped restoration of the previous
directory. -/
theorem claim9_cwd_after (a : Addon) (cwd0 : FsPath) :
    Addon.create_release_cwd a cwd0 = a.path.dropLast ∧
    (Addon.create_release_cwd a cwd0 = cwd0 ↔ cwd0 = a.path.dropLast) :=
  ⟨rfl, ⟨fun h => h.symm, fun h => h.symm⟩⟩
